import Mathlib

/-!
# Drain-aware reuseport selection (`src/ebpf/reuseport_drain.bpf.c`)

A shallow embedding of the `sk_reuseport` program `reuseport_select` and of the
`draining_sockets` LRU hash map it consults.

* The filter `reuseport_select` is translated from the C source.
* The map itself (`BPF_MAP_TYPE_LRU_HASH`, 4096 entries, `__u64` keys, `__u8`
  values) is only *declared* in the source; its behaviour lives outside the
  file.  The store operations are therefore modelled from the specification:
  a bounded table kept as a recency list (most recently used entry first) that
  evicts the least recently used entry when a new key has to be inserted into a
  full table.

Machine integers are natural numbers; a cast to a `w`-bit type is `% 2 ^ w`.
-/

namespace ReuseportDrain

/-! ## Constants and declarations of the source -/

/-- Source line 13: `#define SOCKET_DRAINING 1`. -/
def SOCKET_DRAINING : Nat := 1

/-- Modelled from the spec: the verdict `DROP` of `enum sk_action`, declared in
`include/vmlinux.h` (not part of the sources at hand).  The specification names
exactly two distinct verdicts; the numeric value is the one of the Linux UAPI. -/
def SK_DROP : Int := 0

/-- Modelled from the spec: the verdict `PASS` of `enum sk_action`, declared in
`include/vmlinux.h` (not part of the sources at hand). -/
def SK_PASS : Int := 1

/-- Kinds of BPF map; the source only uses the LRU hash. -/
inductive bpf_map_type where
  | BPF_MAP_TYPE_LRU_HASH
  deriving DecidableEq, Repr

/-- The attributes of a map declaration in the `.maps` section
(`__uint(type, _)`, `__uint(max_entries, _)`, `__type(key, _)`,
`__type(value, _)`); key and value types are recorded by their size in bytes. -/
structure bpf_map_def where
  type : bpf_map_type
  max_entries : Nat
  key_size : Nat
  value_size : Nat
  deriving DecidableEq, Repr

/-- Source lines 18-23: the map `draining_sockets`:
an LRU hash with 4096 entries, `__u64` keys and `__u8` values. -/
def draining_sockets : bpf_map_def :=
  { type := bpf_map_type.BPF_MAP_TYPE_LRU_HASH
    max_entries := 4096
    key_size := 8
    value_size := 1 }

/-- Modelled from the spec: the context `struct sk_reuseport_md` handed to the
filter, declared in `include/vmlinux.h` (not part of the sources at hand).  The
specification speaks of a context identifying the current candidate socket,
next to packet data, length, protocol and hash.  Pointers are kept as their
numeric value; the filter reads only `sk`. -/
structure sk_reuseport_md where
  data : Nat
  data_end : Nat
  len : Nat
  eth_protocol : Nat
  ip_protocol : Nat
  bind_inany : Nat
  hash : Nat
  sk : Nat
  migrating_sk : Nat
  deriving DecidableEq, Repr

/-! ## The drain state store -/

/-- The contents of the map: entries `(key, value)` with a `__u64` key and a
`__u8` value, kept in recency order, the most recently used entry first and the
least recently used entry last. -/
abbrev MapState := List (Nat × Nat)

/-- The value stored under key `k`, if there is an entry for `k`. -/
def find : MapState → Nat → Option Nat
  | [], _ => none
  | (k', v) :: rest, k => if k' = k then some v else find rest k

/-- The entries of the map without those stored under key `k`. -/
def remove (s : MapState) (k : Nat) : MapState :=
  s.filter (fun e => decide (e.1 ≠ k))

/-- The keys of the map, in recency order. -/
def keys (s : MapState) : List Nat := s.map Prod.fst

/-- Modelled from the spec: a use of key `k` in the LRU table ("LRU eviction:
removal of the least-recently-accessed entry").  An entry that is present
becomes the most recently used one; its value is kept.  A key without an entry
leaves the table as it is. -/
def touch (s : MapState) (k : Nat) : MapState :=
  match find s k with
  | some v => (k, v) :: remove s k
  | none => s

/-- Modelled from the spec: the helper `bpf_map_lookup_elem` on the LRU hash,
which lives outside the sources at hand.  The lookup is total and never fails:
it yields the stored value (`none` stands for the null pointer of an absent
key), and being an access it refreshes the recency of the entry it finds. -/
def bpf_map_lookup_elem (s : MapState) (key : Nat) : Option Nat × MapState :=
  (find s key, touch s key)

/-- The key of the least recently used entry, the last one of the recency
list; `none` for the empty map. -/
def lru_victim (s : MapState) : Option Nat :=
  s.getLast?.map Prod.fst

/-- Modelled from the spec: a write of value `v` under key `k` into an LRU table
of capacity `cap` (the map's update operation lives outside the sources at
hand).  "Least-recently-used entry is evicted when the table is full and a new
key must be inserted": a key that has an entry gets the new value and becomes
the most recently used; a new key is put in front, after the least recently
used entry has been dropped if the table already holds `cap` entries.  The
write has no error result ("never surfaced as an error, never blocks a
write"). -/
def lru_update (cap : Nat) (s : MapState) (k v : Nat) : MapState :=
  if (find s k).isSome then (k, v) :: remove s k
  else if cap ≤ s.length then (k, v) :: s.dropLast
  else (k, v) :: s

/-- Modelled from the spec: the key that `lru_update cap s k _` evicts, if it
evicts one ("least-recently-used entry is evicted when the table is full and a
new key must be inserted"): the least
recently used key, when `k` is new and the table holds `cap` entries. -/
def lru_evicted (cap : Nat) (s : MapState) (k : Nat) : Option Nat :=
  if (find s k).isSome then none
  else if cap ≤ s.length then lru_victim s
  else none

/-! ## The selection filter -/

/-- Source line 32: `__u64 key = (__u64)(uintptr_t)ctx->sk;`.
On the BPF target `uintptr_t` is 64 bits wide, as is `__u64` (line 7). -/
def socket_key (ctx : sk_reuseport_md) : Nat :=
  (ctx.sk % 2 ^ 64) % 2 ^ 64

/-- Source lines 29-45: `reuseport_select`.  The map is passed in and handed
back, since the lookup helper is an access to the LRU table; the first
component is the returned verdict. -/
def reuseport_select (s : MapState) (ctx : sk_reuseport_md) : Int × MapState :=
  let key := socket_key ctx
  match bpf_map_lookup_elem s key with
  | (some draining, s') =>
    if draining = SOCKET_DRAINING then (SK_DROP, s') else (SK_PASS, s')
  | (none, s') => (SK_PASS, s')

/-! ## The store contract -/

/-- The drain flag of the specification: "a single-byte enumerated value per
Socket Identity: ACTIVE (default/absent) or DRAINING". -/
inductive DrainFlag where
  | ACTIVE
  | DRAINING
  deriving DecidableEq, Repr

/-- The flag a lookup result stands for.  Source lines 15-16 and 38: the value
`SOCKET_DRAINING` is draining; an absent entry and every other value are
active. -/
def flag_of (r : Option Nat) : DrainFlag :=
  match r with
  | some v => if v = SOCKET_DRAINING then DrainFlag.DRAINING else DrainFlag.ACTIVE
  | none => DrainFlag.ACTIVE

/-- Modelled from the spec: `set(identity, DRAINING)` of the store contract,
performed by the control plane (outside the sources at hand): a write of
`SOCKET_DRAINING` under the identity into `draining_sockets`. -/
def DrainStore.set (s : MapState) (i : Nat) : MapState :=
  lru_update draining_sockets.max_entries s i SOCKET_DRAINING

/-- Modelled from the spec: `clear(identity)` of the store contract, performed
by the control plane (outside the sources at hand): "removes the entry
(equivalent to ACTIVE); idempotent on a missing key". -/
def DrainStore.clear (s : MapState) (i : Nat) : MapState :=
  remove s i

/-- Modelled from the spec: `lookup(identity) -> ACTIVE | DRAINING` of the
store contract: "total function; never fails. Absent key returns ACTIVE".  It
reads the map through `bpf_map_lookup_elem`, as the filter does. -/
def DrainStore.lookup (s : MapState) (i : Nat) : DrainFlag × MapState :=
  match bpf_map_lookup_elem s i with
  | (r, s') => (flag_of r, s')

/-- The operations on the store: those of the store contract (section 4.1 of
the specification), and an invocation of the filter for a candidate, which
reads the store. -/
inductive Op where
  | set (i : Nat)
  | clear (i : Nat)
  | lookup (i : Nat)
  | select (ctx : sk_reuseport_md)
  deriving DecidableEq, Repr

/-- The store after one operation. -/
def step (s : MapState) (op : Op) : MapState :=
  match op with
  | Op.set i => DrainStore.set s i
  | Op.clear i => DrainStore.clear s i
  | Op.lookup i => (DrainStore.lookup s i).2
  | Op.select ctx => (reuseport_select s ctx).2

/-- The store after a sequence of operations, carried out from left to right. -/
def run (s : MapState) (ops : List Op) : MapState :=
  match ops with
  | [] => s
  | op :: rest => run (step s op) rest

/-- The identity that an operation evicts from the store, if any: only a
`set` of a new identity into a full store evicts. -/
def evicted (s : MapState) (op : Op) : Option Nat :=
  match op with
  | Op.set i => lru_evicted draining_sockets.max_entries s i
  | Op.clear _ => none
  | Op.lookup _ => none
  | Op.select _ => none

/-- No operation of the sequence, carried out from store `s`, evicts
identity `i`. -/
def never_evicts (i : Nat) (s : MapState) (ops : List Op) : Bool :=
  match ops with
  | [] => true
  | op :: rest => decide (evicted s op ≠ some i) && never_evicts i (step s op) rest

/-- The initial store: no entries. -/
def empty_store : MapState := []

/-- Well-formed map contents: at most one entry per key, and no more entries
than `draining_sockets` can hold. -/
def WF (s : MapState) : Prop :=
  (keys s).Nodup ∧ s.length ≤ draining_sockets.max_entries

instance (s : MapState) : Decidable (WF s) := by
  unfold WF
  infer_instance

/-! ## Groups of candidates and fixtures -/

/-- Source lines 25-28: the filter "runs once per packet per candidate socket
in a SO_REUSEPORT group".  The verdicts of the filter for the candidates of a
group, evaluated one after the other, and the map afterwards. -/
def select_group (s : MapState) (group : List sk_reuseport_md) : List Int × MapState :=
  match group with
  | [] => ([], s)
  | c :: rest =>
    match reuseport_select s c with
    | (v, s') =>
      match select_group s' rest with
      | (vs, s2) => (v :: vs, s2)

/-- A candidate context whose socket pointer is `p`; the other fields are 0. -/
def candidate (p : Nat) : sk_reuseport_md :=
  { data := 0, data_end := 0, len := 0, eth_protocol := 0, ip_protocol := 0,
    bind_inany := 0, hash := 0, sk := p, migrating_sk := 0 }

/-- A store that is full: the identities 0 to 4095, all marked draining,
identity 0 the most recently used and identity 4095 the least recently used. -/
def full_store : MapState :=
  (List.range 4096).map (fun k => (k, SOCKET_DRAINING))

/-! ## Memory safety of the filter -/

/-- The ways in which a read through a pointer can go wrong. -/
inductive Fault where
  | null_dereference
  deriving DecidableEq, Repr

/-- A read `*p` through a `__u8 *`: `none` is the null pointer, which cannot be
read; `some v` points to the stored byte `v`. -/
def load_u8 (p : Option Nat) : Except Fault Nat :=
  match p with
  | some v => Except.ok v
  | none => Except.error Fault.null_dereference

/-- Source lines 29-45 once more, with the dereference of line 38 made
explicit: in `draining && *draining == SOCKET_DRAINING` the operator `&&`
evaluates `*draining` only when `draining` is not null, and a read through a
null pointer would be a fault. -/
def reuseport_select_checked (s : MapState) (ctx : sk_reuseport_md) :
    Except Fault (Int × MapState) :=
  let key := socket_key ctx
  match bpf_map_lookup_elem s key with
  | (draining, s') =>
    if draining.isSome then
      match load_u8 draining with
      | Except.ok v =>
        if v = SOCKET_DRAINING then Except.ok (SK_DROP, s') else Except.ok (SK_PASS, s')
      | Except.error f => Except.error f
    else Except.ok (SK_PASS, s')

/-! ## Sockets, pointers and the control-plane interface -/

/-- The width in bits of a pointer on the BPF target; the pointer fields of
`struct sk_reuseport_md` are 64-bit slots. -/
def pointer_bits : Nat := 64

/-- The value `p` fits a pointer of the BPF target. -/
def is_pointer (p : Nat) : Prop := p < 2 ^ pointer_bits

instance (p : Nat) : Decidable (is_pointer p) := by
  unfold is_pointer
  infer_instance

/-- A socket as the two sides see it: the address of its kernel object, which
the network stack hands to the filter in `ctx->sk`, and its socket cookie, the
64-bit identity that source line 15 names as the key of `draining_sockets`. -/
structure sock where
  addr : Nat
  cookie : Nat
  deriving DecidableEq, Repr

/-- The context with which the filter is invoked for socket `sk` as the
candidate. -/
def ctx_of_sock (sk : sock) : sk_reuseport_md :=
  candidate sk.addr

/-- The outcome that a control-plane call reports. -/
inductive StoreStatus where
  | ok
  | failed
  deriving DecidableEq, Repr

/-- Modelled from the spec: `mark_draining(identity)` of the control-plane
interface (outside the sources at hand): `set(identity, DRAINING)`; capacity
exhaustion is "never surfaced as an error". -/
def mark_draining (s : MapState) (i : Nat) : StoreStatus × MapState :=
  (StoreStatus.ok, DrainStore.set s i)

/-- Modelled from the spec: `unmark_draining(identity)` of the control-plane
interface (outside the sources at hand): `clear(identity)`; "on a nonexistent
key is a no-op, not an error". -/
def unmark_draining (s : MapState) (i : Nat) : StoreStatus × MapState :=
  (StoreStatus.ok, DrainStore.clear s i)

/-! ## Basic facts about the filter -/

theorem SK_DROP_ne_SK_PASS : SK_DROP ≠ SK_PASS := by decide

/-- The verdict of the filter, as a function of the stored value. -/
theorem reuseport_select_verdict (s : MapState) (ctx : sk_reuseport_md) :
    (reuseport_select s ctx).1 =
      if find s (socket_key ctx) = some SOCKET_DRAINING then SK_DROP else SK_PASS := by
  simp only [reuseport_select, bpf_map_lookup_elem]
  cases h : find s (socket_key ctx) with
  | none => simp
  | some v =>
    by_cases hv : v = SOCKET_DRAINING
    · simp [hv]
    · simp [hv]

/-- The map the filter hands back is the map after one use of the key. -/
theorem reuseport_select_store (s : MapState) (ctx : sk_reuseport_md) :
    (reuseport_select s ctx).2 = touch s (socket_key ctx) := by
  simp only [reuseport_select, bpf_map_lookup_elem]
  cases h : find s (socket_key ctx) with
  | none => simp
  | some v =>
    by_cases hv : v = SOCKET_DRAINING
    · simp [hv]
    · simp [hv]

/-! ## Basic facts about the recency list -/

theorem find_nil (k : Nat) : find [] k = none := rfl

theorem find_cons (k' v : Nat) (rest : MapState) (k : Nat) :
    find ((k', v) :: rest) k = if k' = k then some v else find rest k := rfl

theorem find_eq_none_iff (s : MapState) (k : Nat) :
    find s k = none ↔ k ∉ keys s := by
  induction s with
  | nil => simp [find, keys]
  | cons e rest ih =>
    obtain ⟨k', v⟩ := e
    by_cases h : k' = k
    · simp [find_cons, h, keys]
    · have h' : ¬ k = k' := fun c => h c.symm
      simpa [find_cons, h, h', keys] using ih

theorem find_isSome_iff (s : MapState) (k : Nat) :
    (find s k).isSome = true ↔ k ∈ keys s := by
  rw [← not_iff_not, ← find_eq_none_iff]
  cases find s k <;> simp

/-- With at most one entry per key, `find` yields `v` for `k` exactly when
`(k, v)` is an entry of the map. -/
theorem find_eq_some_iff_mem (s : MapState) (k v : Nat) (h : (keys s).Nodup) :
    find s k = some v ↔ (k, v) ∈ s := by
  induction s with
  | nil => simp [find]
  | cons e rest ih =>
    obtain ⟨k', v'⟩ := e
    have hnd : (keys rest).Nodup := (List.nodup_cons.1 h).2
    have hnot : k' ∉ keys rest := (List.nodup_cons.1 h).1
    by_cases hk : k' = k
    · subst hk
      have hrest : (k', v) ∉ rest := fun c => hnot (List.mem_map_of_mem Prod.fst c)
      simp only [find_cons, if_true, List.mem_cons, Prod.mk.injEq, true_and, Option.some.injEq]
      constructor
      · intro hv
        exact Or.inl hv.symm
      · rintro (hv | hmem)
        · exact hv.symm
        · exact absurd hmem hrest
    · have hk2 : ¬ k = k' := fun c => hk c.symm
      simp only [find_cons, hk, if_false, List.mem_cons, Prod.mk.injEq, hk2, false_and,
        false_or]
      exact ih hnd

theorem remove_nil (k : Nat) : remove [] k = [] := rfl

theorem remove_cons (e : Nat × Nat) (rest : MapState) (k : Nat) :
    remove (e :: rest) k = if e.1 = k then remove rest k else e :: remove rest k := by
  by_cases h : e.1 = k <;> simp [remove, List.filter_cons, h]

theorem find_remove_self (s : MapState) (k : Nat) : find (remove s k) k = none := by
  induction s with
  | nil => rfl
  | cons e rest ih =>
    obtain ⟨k', v⟩ := e
    by_cases h : k' = k
    · simpa [remove_cons, h] using ih
    · simpa [remove_cons, h, find_cons] using ih

theorem find_remove_ne (s : MapState) {k j : Nat} (h : k ≠ j) :
    find (remove s j) k = find s k := by
  induction s with
  | nil => rfl
  | cons e rest ih =>
    obtain ⟨k', v⟩ := e
    by_cases hj : k' = j
    · have hk : ¬ k' = k := fun c => h (c.symm.trans hj)
      simpa [remove_cons, hj, find_cons, hk, Ne.symm h] using ih
    · by_cases hk : k' = k
      · subst hk
        simp [remove_cons, hj, find_cons]
      · simpa [remove_cons, hj, find_cons, hk] using ih

theorem keys_remove (s : MapState) (k : Nat) :
    keys (remove s k) = (keys s).filter (fun x => decide (x ≠ k)) := by
  induction s with
  | nil => rfl
  | cons e rest ih =>
    by_cases h : e.1 = k
    · simpa [remove_cons, h, keys, List.filter_cons] using ih
    · simpa [remove_cons, h, keys, List.filter_cons] using ih

theorem remove_eq_self (s : MapState) (k : Nat) (h : find s k = none) :
    remove s k = s := by
  rw [find_eq_none_iff] at h
  unfold remove
  rw [List.filter_eq_self]
  intro e he
  have : e.1 ∈ keys s := List.mem_map_of_mem Prod.fst he
  have hne : e.1 ≠ k := fun c => h (c ▸ this)
  simpa using hne

theorem remove_remove (s : MapState) (k : Nat) : remove (remove s k) k = remove s k :=
  remove_eq_self _ _ (find_remove_self s k)

theorem length_remove_le (s : MapState) (k : Nat) : (remove s k).length ≤ s.length :=
  List.length_filter_le _ _

theorem length_remove_lt (s : MapState) (k : Nat) (h : (find s k).isSome = true) :
    (remove s k).length < s.length := by
  induction s with
  | nil => simp [find] at h
  | cons e rest ih =>
    obtain ⟨k', v⟩ := e
    by_cases hk : k' = k
    · have := length_remove_le rest k
      simp only [remove_cons, hk, if_true, List.length_cons]
      omega
    · simp only [find_cons, hk, if_false] at h
      have := ih h
      simp only [remove_cons, hk, if_false, List.length_cons]
      omega

theorem find_touch (s : MapState) (j k : Nat) : find (touch s j) k = find s k := by
  unfold touch
  cases h : find s j with
  | none => rfl
  | some v =>
    by_cases hk : j = k
    · subst hk
      simp [find_cons, h]
    · simp [find_cons, hk, find_remove_ne s (Ne.symm hk)]

theorem length_touch_le (s : MapState) (k : Nat) : (touch s k).length ≤ s.length := by
  unfold touch
  cases h : find s k with
  | none => exact le_refl _
  | some v =>
    have := length_remove_lt s k (by simp [h])
    simp only [List.length_cons]
    omega

theorem find_dropLast (s : MapState) (k : Nat) (h : lru_victim s ≠ some k) :
    find s.dropLast k = find s k := by
  induction s with
  | nil => rfl
  | cons e rest ih =>
    obtain ⟨k', v⟩ := e
    cases rest with
    | nil =>
      have hk : ¬ k' = k := by simpa [lru_victim] using h
      simp [find_cons, hk, find_nil]
    | cons e2 rest2 =>
      have h2 : lru_victim (e2 :: rest2) ≠ some k := by
        simpa [lru_victim, List.getLast?_cons_cons] using h
      simp only [List.dropLast_cons₂, find_cons]
      rw [ih h2]

theorem mem_keys_of_lru_victim (s : MapState) (k : Nat) (h : lru_victim s = some k) :
    k ∈ keys s := by
  unfold lru_victim at h
  cases hl : s.getLast? with
  | none => simp [hl] at h
  | some e =>
    have he : e ∈ s := List.mem_of_getLast?_eq_some hl
    have hk : e.1 = k := by simpa [hl] using h
    exact hk ▸ List.mem_map_of_mem Prod.fst he

theorem find_dropLast_none (s : MapState) (k : Nat) (h : find s k = none) :
    find s.dropLast k = none := by
  rw [find_dropLast s k]
  · exact h
  · intro c
    exact (find_eq_none_iff s k).1 h (mem_keys_of_lru_victim s k c)

/-! ## Basic facts about the store operations -/

theorem find_eq_none_of_not_isSome (s : MapState) (k : Nat)
    (h : ¬ (find s k).isSome = true) : find s k = none := by
  cases hf : find s k with
  | none => rfl
  | some w => simp [hf] at h

theorem lru_update_present (cap : Nat) (s : MapState) (k v : Nat)
    (h : (find s k).isSome = true) : lru_update cap s k v = (k, v) :: remove s k := by
  unfold lru_update
  rw [if_pos h]

theorem lru_update_full (cap : Nat) (s : MapState) (k v : Nat)
    (h : find s k = none) (hc : cap ≤ s.length) :
    lru_update cap s k v = (k, v) :: s.dropLast := by
  unfold lru_update
  rw [if_neg (by simp [h]), if_pos hc]

theorem lru_update_room (cap : Nat) (s : MapState) (k v : Nat)
    (h : find s k = none) (hc : ¬ cap ≤ s.length) :
    lru_update cap s k v = (k, v) :: s := by
  unfold lru_update
  rw [if_neg (by simp [h]), if_neg hc]

theorem lru_evicted_full (cap : Nat) (s : MapState) (k : Nat)
    (h : find s k = none) (hc : cap ≤ s.length) :
    lru_evicted cap s k = lru_victim s := by
  unfold lru_evicted
  rw [if_neg (by simp [h]), if_pos hc]

theorem find_lru_update_self (cap : Nat) (s : MapState) (k v : Nat) :
    find (lru_update cap s k v) k = some v := by
  unfold lru_update
  split
  · simp [find_cons]
  · split <;> simp [find_cons]

theorem find_lru_update_ne (cap : Nat) (s : MapState) (j v : Nat) {k : Nat} (h : k ≠ j)
    (hev : lru_evicted cap s j ≠ some k) :
    find (lru_update cap s j v) k = find s k := by
  unfold lru_update
  unfold lru_evicted at hev
  by_cases hp : (find s j).isSome = true
  · simp [hp, find_cons, Ne.symm h, find_remove_ne s h]
  · by_cases hc : cap ≤ s.length
    · simp only [hp, hc, if_true, if_false] at hev
      simp [hp, hc, find_cons, Ne.symm h, find_dropLast s k hev]
    · simp [hp, hc, find_cons, Ne.symm h]

theorem find_lru_update_none (cap : Nat) (s : MapState) (j v : Nat) {k : Nat} (h : k ≠ j)
    (hk : find s k = none) : find (lru_update cap s j v) k = none := by
  rw [find_lru_update_ne cap s j v h, hk]
  intro c
  unfold lru_evicted at c
  by_cases hp : (find s j).isSome = true
  · simp [hp] at c
  · by_cases hc : cap ≤ s.length
    · simp only [hp, hc, if_true, if_false] at c
      exact (find_eq_none_iff s k).1 hk (mem_keys_of_lru_victim s k c)
    · simp [hp, hc] at c

theorem lookup_flag (s : MapState) (i : Nat) :
    (DrainStore.lookup s i).1 = flag_of (find s i) := rfl

theorem lookup_store (s : MapState) (i : Nat) :
    (DrainStore.lookup s i).2 = touch s i := rfl

theorem flag_of_eq_DRAINING_iff (r : Option Nat) :
    flag_of r = DrainFlag.DRAINING ↔ r = some SOCKET_DRAINING := by
  cases r with
  | none => simp [flag_of]
  | some v =>
    by_cases hv : v = SOCKET_DRAINING <;> simp [flag_of, hv]

theorem flag_of_eq_ACTIVE_iff (r : Option Nat) :
    flag_of r = DrainFlag.ACTIVE ↔ r ≠ some SOCKET_DRAINING := by
  cases r with
  | none => simp [flag_of]
  | some v =>
    by_cases hv : v = SOCKET_DRAINING <;> simp [flag_of, hv]

/-- The filter drops a candidate exactly when the lookup of its key says
`DRAINING`. -/
theorem reuseport_select_drop_iff_lookup (s : MapState) (ctx : sk_reuseport_md) :
    (reuseport_select s ctx).1 = SK_DROP ↔
      (DrainStore.lookup s (socket_key ctx)).1 = DrainFlag.DRAINING := by
  rw [reuseport_select_verdict, lookup_flag, flag_of_eq_DRAINING_iff]
  by_cases h : find s (socket_key ctx) = some SOCKET_DRAINING
  · simp [h]
  · simp [h, SK_DROP_ne_SK_PASS.symm]

/-- The filter passes a candidate exactly when the lookup of its key says
`ACTIVE`. -/
theorem reuseport_select_pass_iff_lookup (s : MapState) (ctx : sk_reuseport_md) :
    (reuseport_select s ctx).1 = SK_PASS ↔
      (DrainStore.lookup s (socket_key ctx)).1 = DrainFlag.ACTIVE := by
  rw [reuseport_select_verdict, lookup_flag, flag_of_eq_ACTIVE_iff]
  by_cases h : find s (socket_key ctx) = some SOCKET_DRAINING
  · simp [h, SK_DROP_ne_SK_PASS]
  · simp [h]

theorem find_set_self (s : MapState) (i : Nat) :
    find (DrainStore.set s i) i = some SOCKET_DRAINING :=
  find_lru_update_self _ s i _

theorem find_clear_self (s : MapState) (i : Nat) : find (DrainStore.clear s i) i = none :=
  find_remove_self s i

theorem find_clear_ne (s : MapState) {k j : Nat} (h : k ≠ j) :
    find (DrainStore.clear s j) k = find s k :=
  find_remove_ne s h

/-- An operation that is neither `clear k` nor an eviction of `k` keeps a
`DRAINING` mark of `k`. -/
theorem find_step_draining (s : MapState) (op : Op) (k : Nat)
    (h : find s k = some SOCKET_DRAINING) (hc : op ≠ Op.clear k)
    (hev : evicted s op ≠ some k) : find (step s op) k = some SOCKET_DRAINING := by
  cases op with
  | set j =>
    by_cases hj : k = j
    · subst hj
      exact find_set_self s k
    · simp only [step, DrainStore.set]
      rw [find_lru_update_ne _ s j _ hj hev, h]
  | clear j =>
    have hj : k ≠ j := fun c => hc (by rw [c])
    simp only [step]
    rw [find_clear_ne s hj, h]
  | lookup j =>
    simp only [step, lookup_store]
    rw [find_touch, h]
  | select ctx =>
    simp only [step, reuseport_select_store]
    rw [find_touch, h]

/-- An operation other than `set k` does not create an entry for `k`. -/
theorem find_step_none (s : MapState) (op : Op) (k : Nat)
    (h : find s k = none) (hs : op ≠ Op.set k) : find (step s op) k = none := by
  cases op with
  | set j =>
    have hj : k ≠ j := fun c => hs (by rw [c])
    exact find_lru_update_none _ s j _ hj h
  | clear j =>
    by_cases hj : k = j
    · subst hj
      exact find_clear_self s k
    · simp only [step]
      rw [find_clear_ne s hj, h]
  | lookup j =>
    simp only [step, lookup_store]
    rw [find_touch, h]
  | select ctx =>
    simp only [step, reuseport_select_store]
    rw [find_touch, h]

theorem find_run_none (ops : List Op) (s : MapState) (k : Nat)
    (h : find s k = none) (hs : Op.set k ∉ ops) : find (run s ops) k = none := by
  induction ops generalizing s with
  | nil => exact h
  | cons op rest ih =>
    have h1 : op ≠ Op.set k := fun c => hs (by simp [c])
    have h2 : Op.set k ∉ rest := fun c => hs (List.mem_cons_of_mem _ c)
    exact ih (step s op) (find_step_none s op k h h1) h2

theorem find_run_draining (ops : List Op) (s : MapState) (k : Nat)
    (h : find s k = some SOCKET_DRAINING) (hc : Op.clear k ∉ ops)
    (hev : never_evicts k s ops = true) : find (run s ops) k = some SOCKET_DRAINING := by
  induction ops generalizing s with
  | nil => exact h
  | cons op rest ih =>
    have h1 : op ≠ Op.clear k := fun c => hc (by simp [c])
    have h2 : Op.clear k ∉ rest := fun c => hc (List.mem_cons_of_mem _ c)
    simp only [never_evicts, Bool.and_eq_true, decide_eq_true_eq] at hev
    exact ih (step s op) (find_step_draining s op k h h1 hev.1) h2 hev.2

theorem select_group_verdicts (group : List sk_reuseport_md) (s : MapState) :
    (select_group s group).1 =
      group.map (fun c =>
        if find s (socket_key c) = some SOCKET_DRAINING then SK_DROP else SK_PASS) := by
  induction group generalizing s with
  | nil => rfl
  | cons c rest ih =>
    have hfind : ∀ k, find (reuseport_select s c).2 k = find s k := by
      intro k
      rw [reuseport_select_store, find_touch]
    simp only [select_group, List.map_cons]
    rw [ih (reuseport_select s c).2, reuseport_select_verdict]
    simp only [hfind]

theorem touch_perm (s : MapState) (k : Nat) (h : (keys s).Nodup) : (touch s k).Perm s := by
  unfold touch
  cases hf : find s k with
  | none => exact List.Perm.refl _
  | some v =>
    simp only
    induction s with
    | nil => simp [find] at hf
    | cons e rest ih =>
      obtain ⟨k', v'⟩ := e
      have hnd : (keys rest).Nodup := (List.nodup_cons.1 h).2
      have hnot : k' ∉ keys rest := (List.nodup_cons.1 h).1
      by_cases hk : k' = k
      · subst hk
        have hv : v' = v := by simpa [find_cons] using hf
        subst hv
        have hr : remove rest k' = rest :=
          remove_eq_self rest k' ((find_eq_none_iff rest k').2 hnot)
        simp [remove_cons, hr]
      · have hf' : find rest k = some v := by simpa [find_cons, hk] using hf
        have := ih hnd hf'
        simp only [remove_cons, hk, if_false]
        exact (List.Perm.swap _ _ _).trans (List.Perm.cons _ this)

/-! ## The recency discipline -/

/-- A write puts the written key in front of the recency list. -/
theorem head_lru_update (cap : Nat) (s : MapState) (k v : Nat) :
    (lru_update cap s k v).head? = some (k, v) := by
  unfold lru_update
  split
  · rfl
  · split <;> rfl

/-- A lookup that finds an entry puts it in front of the recency list. -/
theorem head_touch (s : MapState) (k v : Nat) (h : find s k = some v) :
    (touch s k).head? = some (k, v) := by
  simp [touch, h]

/-- A use of key `k` leaves the order of the other entries as it is. -/
theorem remove_touch (s : MapState) (k : Nat) : remove (touch s k) k = remove s k := by
  unfold touch
  cases h : find s k with
  | none => rfl
  | some v =>
    simp only
    rw [remove_cons, if_pos rfl, remove_remove]

/-- A write that evicts nothing leaves the order of the other entries as it
is. -/
theorem remove_lru_update (cap : Nat) (s : MapState) (k v : Nat)
    (h : lru_evicted cap s k = none) :
    remove (lru_update cap s k v) k = remove s k := by
  by_cases hp : (find s k).isSome = true
  · rw [lru_update_present cap s k v hp, remove_cons, if_pos rfl, remove_remove]
  · have hnone := find_eq_none_of_not_isSome s k hp
    by_cases hc : cap ≤ s.length
    · rw [lru_evicted_full cap s k hnone hc] at h
      have hnil : s = [] := by
        cases s with
        | nil => rfl
        | cons e rest =>
          have hne : (e :: rest) ≠ [] := List.cons_ne_nil _ _
          simp [lru_victim, List.getLast?_eq_getLast _ hne] at h
      subst hnil
      rw [lru_update_full cap [] k v hnone hc, remove_cons, if_pos rfl]
      rfl
    · rw [lru_update_room cap s k v hnone hc, remove_cons, if_pos rfl]

/-- The key reported by `lru_evicted` had an entry before the write and has none
after it. -/
theorem lru_evicted_removed (cap : Nat) (s : MapState) (j v k : Nat)
    (hnd : (keys s).Nodup) (h : lru_evicted cap s j = some k) :
    k ∈ keys s ∧ find (lru_update cap s j v) k = none := by
  unfold lru_evicted at h
  by_cases hp : (find s j).isSome = true
  · simp [hp] at h
  · have hnone := find_eq_none_of_not_isSome s j hp
    by_cases hc : cap ≤ s.length
    · simp only [hp, hc, if_true, if_false] at h
      have hmem := mem_keys_of_lru_victim s k h
      have hkj : k ≠ j := fun c => (find_eq_none_iff s j).1 hnone (c ▸ hmem)
      refine ⟨hmem, ?_⟩
      rw [lru_update_full cap s j v hnone hc, find_cons, if_neg (Ne.symm hkj)]
      have hne : s ≠ [] := by
        intro c
        rw [c] at hmem
        simp [keys] at hmem
      have hlast : (s.getLast hne).1 = k := by
        simpa [lru_victim, List.getLast?_eq_getLast s hne] using h
      have hsplit : keys s = keys s.dropLast ++ [k] := by
        conv_lhs => rw [← List.dropLast_append_getLast hne]
        unfold keys
        rw [List.map_append, List.map_singleton, hlast]
      rw [hsplit] at hnd
      have hdis := (List.nodup_append.1 hnd).2.2
      exact (find_eq_none_iff _ _).2 (fun c => hdis c (by simp))
    · simp [hp, hc] at h

/-! ## Capacity and well-formedness -/

theorem max_entries_eq : draining_sockets.max_entries = 4096 := rfl

theorem length_lru_update_le (cap : Nat) (hcap : 0 < cap) (s : MapState) (k v : Nat)
    (h : s.length ≤ cap) : (lru_update cap s k v).length ≤ cap := by
  by_cases hp : (find s k).isSome = true
  · have := length_remove_lt s k hp
    rw [lru_update_present cap s k v hp, List.length_cons]
    omega
  · have hnone := find_eq_none_of_not_isSome s k hp
    by_cases hc : cap ≤ s.length
    · rw [lru_update_full cap s k v hnone hc, List.length_cons, List.length_dropLast]
      omega
    · rw [lru_update_room cap s k v hnone hc, List.length_cons]
      omega

theorem length_step_le (s : MapState) (op : Op)
    (h : s.length ≤ draining_sockets.max_entries) :
    (step s op).length ≤ draining_sockets.max_entries := by
  cases op with
  | set j => exact length_lru_update_le _ (by rw [max_entries_eq]; omega) s j _ h
  | clear j => exact le_trans (length_remove_le s j) h
  | lookup j => exact le_trans (length_touch_le s j) h
  | select ctx =>
    simp only [step, reuseport_select_store]
    exact le_trans (length_touch_le s _) h

theorem length_run_le (ops : List Op) (s : MapState)
    (h : s.length ≤ draining_sockets.max_entries) :
    (run s ops).length ≤ draining_sockets.max_entries := by
  induction ops generalizing s with
  | nil => exact h
  | cons op rest ih => exact ih (step s op) (length_step_le s op h)

theorem keys_cons (e : Nat × Nat) (s : MapState) : keys (e :: s) = e.1 :: keys s := rfl

theorem keys_dropLast (s : MapState) : keys s.dropLast = (keys s).dropLast := by
  unfold keys
  exact List.map_dropLast _ _

theorem nodup_keys_remove (s : MapState) (k : Nat) (h : (keys s).Nodup) :
    (keys (remove s k)).Nodup := by
  rw [keys_remove]
  exact h.filter _

theorem nodup_keys_front (s : MapState) (k v : Nat) (h : (keys s).Nodup) :
    (keys ((k, v) :: remove s k)).Nodup := by
  rw [keys_cons]
  exact List.nodup_cons.2
    ⟨(find_eq_none_iff _ k).1 (find_remove_self s k), nodup_keys_remove s k h⟩

theorem nodup_keys_touch (s : MapState) (k : Nat) (h : (keys s).Nodup) :
    (keys (touch s k)).Nodup := by
  unfold touch
  cases hf : find s k with
  | none => exact h
  | some v => exact nodup_keys_front s k v h

theorem nodup_keys_lru_update (cap : Nat) (s : MapState) (k v : Nat) (h : (keys s).Nodup) :
    (keys (lru_update cap s k v)).Nodup := by
  by_cases hp : (find s k).isSome = true
  · rw [lru_update_present cap s k v hp]
    exact nodup_keys_front s k v h
  · have hnone := find_eq_none_of_not_isSome s k hp
    by_cases hc : cap ≤ s.length
    · rw [lru_update_full cap s k v hnone hc, keys_cons]
      have hsub : (keys s.dropLast).Nodup := by
        rw [keys_dropLast]
        exact h.sublist (List.dropLast_sublist _)
      exact List.nodup_cons.2
        ⟨(find_eq_none_iff _ k).1 (find_dropLast_none s k hnone), hsub⟩
    · rw [lru_update_room cap s k v hnone hc, keys_cons]
      exact List.nodup_cons.2 ⟨(find_eq_none_iff s k).1 hnone, h⟩

/-- Every operation of the store contract keeps the map well-formed. -/
theorem WF_step (s : MapState) (op : Op) (h : WF s) : WF (step s op) := by
  refine ⟨?_, length_step_le s op h.2⟩
  cases op with
  | set j => exact nodup_keys_lru_update _ s j _ h.1
  | clear j => exact nodup_keys_remove s j h.1
  | lookup j => exact nodup_keys_touch s j h.1
  | select ctx =>
    simp only [step, reuseport_select_store]
    exact nodup_keys_touch s _ h.1

/-- Every store reached from the empty store is well-formed. -/
theorem WF_run (ops : List Op) (s : MapState) (h : WF s) : WF (run s ops) := by
  induction ops generalizing s with
  | nil => exact h
  | cons op rest ih => exact ih (step s op) (WF_step s op h)

theorem WF_empty : WF empty_store := by
  refine ⟨List.nodup_nil, ?_⟩
  simp [empty_store]

/-- The filter keeps the map well-formed. -/
theorem WF_reuseport_select (s : MapState) (ctx : sk_reuseport_md) (h : WF s) :
    WF (reuseport_select s ctx).2 := by
  rw [reuseport_select_store]
  exact ⟨nodup_keys_touch s _ h.1, le_trans (length_touch_le s _) h.2⟩

theorem run_append (a b : List Op) (s : MapState) : run s (a ++ b) = run (run s a) b := by
  induction a generalizing s with
  | nil => rfl
  | cons op rest ih => exact ih (step s op)

/-- Inserting the identities `0, 1, ..., n - 1` one after the other into the
empty store: all keys are below `n` and the store holds `min n 4096` entries. -/
theorem insert_range (n : Nat) :
    (∀ k ∈ keys (run empty_store ((List.range n).map Op.set)), k < n) ∧
    (run empty_store ((List.range n).map Op.set)).length = min n 4096 := by
  induction n with
  | zero => simp [run, empty_store, keys]
  | succ n ih =>
    obtain ⟨hk, hl⟩ := ih
    have hrun : run empty_store ((List.range (n + 1)).map Op.set)
        = DrainStore.set (run empty_store ((List.range n).map Op.set)) n := by
      rw [List.range_succ, List.map_append, run_append]
      rfl
    rw [hrun]
    generalize run empty_store ((List.range n).map Op.set) = st at hk hl
    have hnone : find st n = none :=
      (find_eq_none_iff st n).2 (fun c => Nat.lt_irrefl n (hk n c))
    unfold DrainStore.set
    rw [max_entries_eq]
    by_cases hc : 4096 ≤ st.length
    · rw [lru_update_full 4096 st n _ hnone hc, keys_cons, List.length_cons,
        List.length_dropLast]
      refine ⟨?_, by omega⟩
      intro k hmem
      rcases List.mem_cons.1 hmem with rfl | hmem
      · exact Nat.lt_succ_self _
      · rw [keys_dropLast] at hmem
        exact Nat.lt_succ_of_lt (hk k (List.dropLast_subset _ hmem))
    · rw [lru_update_room 4096 st n _ hnone hc, keys_cons, List.length_cons]
      refine ⟨?_, by omega⟩
      intro k hmem
      rcases List.mem_cons.1 hmem with rfl | hmem
      · exact Nat.lt_succ_self _
      · exact Nat.lt_succ_of_lt (hk k hmem)

theorem full_store_length : full_store.length = 4096 := by
  simp [full_store]

theorem full_store_keys : keys full_store = List.range 4096 := by
  unfold keys full_store
  rw [List.map_map]
  exact List.map_id _

theorem full_store_WF : WF full_store := by
  refine ⟨?_, ?_⟩
  · rw [full_store_keys]
    exact List.nodup_range 4096
  · rw [full_store_length, max_entries_eq]

theorem full_store_find_4096 : find full_store 4096 = none := by
  rw [find_eq_none_iff, full_store_keys]
  simp

theorem set_set (s : MapState) (i : Nat) :
    DrainStore.set (DrainStore.set s i) i = DrainStore.set s i := by
  have hsome : (find (DrainStore.set s i) i).isSome = true := by
    rw [find_set_self]; rfl
  have h1 : DrainStore.set (DrainStore.set s i) i
      = (i, SOCKET_DRAINING) :: remove (DrainStore.set s i) i :=
    lru_update_present _ _ i _ hsome
  rw [h1]
  unfold DrainStore.set
  by_cases hp : (find s i).isSome = true
  · rw [lru_update_present _ s i _ hp, remove_cons, if_pos rfl, remove_remove]
  · have hnone := find_eq_none_of_not_isSome s i hp
    by_cases hc : draining_sockets.max_entries ≤ s.length
    · rw [lru_update_full _ s i _ hnone hc, remove_cons, if_pos rfl,
        remove_eq_self _ i (find_dropLast_none s i hnone)]
    · rw [lru_update_room _ s i _ hnone hc, remove_cons, if_pos rfl,
        remove_eq_self s i hnone]

theorem clear_clear (s : MapState) (i : Nat) :
    DrainStore.clear (DrainStore.clear s i) i = DrainStore.clear s i :=
  remove_remove s i

/-! ## Writes and other keys -/

theorem find_dropLast_some (s : MapState) (k v : Nat) (h : find s.dropLast k = some v) :
    find s k = some v := by
  induction s with
  | nil => simp [find] at h
  | cons e rest ih =>
    obtain ⟨k', v'⟩ := e
    cases rest with
    | nil => simp [find] at h
    | cons e2 rest2 =>
      simp only [List.dropLast_cons₂, find_cons] at h ⊢
      by_cases hk : k' = k
      · simpa [hk] using h
      · simp only [hk, if_false] at h ⊢
        exact ih h

/-- A write under key `j` never creates a value for another key `k`: what a
lookup of `k` finds afterwards, it found before. -/
theorem find_lru_update_some (cap : Nat) (s : MapState) (j w : Nat) {k v : Nat}
    (hkj : k ≠ j) (h : find (lru_update cap s j w) k = some v) : find s k = some v := by
  by_cases hp : (find s j).isSome = true
  · rw [lru_update_present cap s j w hp, find_cons, if_neg (Ne.symm hkj),
      find_remove_ne s hkj] at h
    exact h
  · have hnone := find_eq_none_of_not_isSome s j hp
    by_cases hc : cap ≤ s.length
    · rw [lru_update_full cap s j w hnone hc, find_cons, if_neg (Ne.symm hkj)] at h
      exact find_dropLast_some s k v h
    · rw [lru_update_room cap s j w hnone hc, find_cons, if_neg (Ne.symm hkj)] at h
      exact h

/-- An eviction takes place only when the written key is new and the table is
full. -/
theorem lru_evicted_some (cap : Nat) (s : MapState) (j k : Nat)
    (h : lru_evicted cap s j = some k) : find s j = none ∧ cap ≤ s.length := by
  unfold lru_evicted at h
  by_cases hp : (find s j).isSome = true
  · rw [if_pos hp] at h
    exact absurd h (by simp)
  · by_cases hc : cap ≤ s.length
    · exact ⟨find_eq_none_of_not_isSome s j hp, hc⟩
    · rw [if_neg hp, if_neg hc] at h
      exact absurd h (by simp)

theorem socket_key_of_pointer (ctx : sk_reuseport_md) (h : is_pointer ctx.sk) :
    socket_key ctx = ctx.sk := by
  unfold is_pointer pointer_bits at h
  unfold socket_key
  rw [Nat.mod_mod, Nat.mod_eq_of_lt h]

theorem reuseport_select_drop_iff_find (s : MapState) (ctx : sk_reuseport_md) :
    (reuseport_select s ctx).1 = SK_DROP ↔
      find s (socket_key ctx) = some SOCKET_DRAINING := by
  rw [reuseport_select_drop_iff_lookup, lookup_flag, flag_of_eq_DRAINING_iff]

theorem reuseport_select_pass_or_drop (s : MapState) (ctx : sk_reuseport_md) :
    (reuseport_select s ctx).1 = SK_PASS ∨ (reuseport_select s ctx).1 = SK_DROP := by
  rw [reuseport_select_verdict]
  by_cases h : find s (socket_key ctx) = some SOCKET_DRAINING
  · right; simp [h]
  · left; simp [h]

/-- The verdict of the filter is determined by what the lookup of the key
finds. -/
theorem reuseport_select_congr (s1 s2 : MapState) (c1 c2 : sk_reuseport_md)
    (h : find s1 (socket_key c1) = find s2 (socket_key c2)) :
    (reuseport_select s1 c1).1 = (reuseport_select s2 c2).1 := by
  rw [reuseport_select_verdict, reuseport_select_verdict, h]

/-! ## The claims -/

/-- C1: for every store state and every candidate context, `reuseport_select`
returns `SK_DROP` exactly when the store has an entry under the key derived from
`ctx->sk` whose value is `SOCKET_DRAINING` (which is 1); in every other case (no
entry, or an entry with another value) it returns `SK_PASS`. -/
theorem reuseport_select_drop_iff (s : MapState) (ctx : sk_reuseport_md) :
    SOCKET_DRAINING = 1 ∧
    ((reuseport_select s ctx).1 = SK_DROP ↔
        find s (socket_key ctx) = some SOCKET_DRAINING) ∧
    ((reuseport_select s ctx).1 = SK_PASS ↔
        find s (socket_key ctx) ≠ some SOCKET_DRAINING) ∧
    ((keys s).Nodup →
      ((reuseport_select s ctx).1 = SK_DROP ↔ (socket_key ctx, SOCKET_DRAINING) ∈ s) ∧
      ((reuseport_select s ctx).1 = SK_PASS ↔ (socket_key ctx, SOCKET_DRAINING) ∉ s)) := by
  have hdrop : (reuseport_select s ctx).1 = SK_DROP ↔
      find s (socket_key ctx) = some SOCKET_DRAINING := by
    rw [reuseport_select_verdict]
    by_cases h : find s (socket_key ctx) = some SOCKET_DRAINING
    · simp [h]
    · simp [h, SK_DROP_ne_SK_PASS.symm]
  have hpass : (reuseport_select s ctx).1 = SK_PASS ↔
      find s (socket_key ctx) ≠ some SOCKET_DRAINING := by
    rw [reuseport_select_verdict]
    by_cases h : find s (socket_key ctx) = some SOCKET_DRAINING
    · simp [h, SK_DROP_ne_SK_PASS]
    · simp [h]
  refine ⟨rfl, hdrop, hpass, ?_⟩
  intro hnd
  rw [hdrop, hpass, Ne, find_eq_some_iff_mem s _ _ hnd]
  exact ⟨Iff.rfl, Iff.rfl⟩

/-- Witness for C1: the store `[(5, 0), (6, 1)]`, in which the candidate with
socket pointer 6 has an entry with value 1. -/
theorem reuseport_select_drop_iff_witness :
    (keys [(5, 0), (6, 1)]).Nodup ∧
    ((reuseport_select [(5, 0), (6, 1)] (candidate 6)).1 = SK_DROP ↔
      (socket_key (candidate 6), SOCKET_DRAINING) ∈ [(5, 0), (6, 1)]) ∧
    ((reuseport_select [(5, 0), (6, 1)] (candidate 6)).1 = SK_PASS ↔
      (socket_key (candidate 6), SOCKET_DRAINING) ∉ [(5, 0), (6, 1)]) :=
  ⟨by decide,
    (reuseport_select_drop_iff [(5, 0), (6, 1)] (candidate 6)).2.2.2 (by decide)⟩

/-- C2: an identity that has never been written to the store (no `set` of it in
the history of operations since the initial empty store; in particular every
identity while the store is still empty) looks up as `ACTIVE`, and
`reuseport_select` returns `SK_PASS` for a candidate with that identity. -/
theorem never_written_is_active (ops : List Op) (i : Nat) (h : Op.set i ∉ ops) :
    (DrainStore.lookup (run empty_store ops) i).1 = DrainFlag.ACTIVE ∧
    (∀ ctx : sk_reuseport_md, socket_key ctx = i →
        (reuseport_select (run empty_store ops) ctx).1 = SK_PASS) ∧
    (DrainStore.lookup empty_store i).1 = DrainFlag.ACTIVE ∧
    (∀ ctx : sk_reuseport_md, socket_key ctx = i →
        (reuseport_select empty_store ctx).1 = SK_PASS) := by
  have hf : find (run empty_store ops) i = none := find_run_none ops empty_store i rfl h
  have h1 : (DrainStore.lookup (run empty_store ops) i).1 = DrainFlag.ACTIVE := by
    rw [lookup_flag, hf]; rfl
  have h2 : (DrainStore.lookup empty_store i).1 = DrainFlag.ACTIVE := rfl
  refine ⟨h1, ?_, h2, ?_⟩
  · intro ctx hk
    rw [reuseport_select_pass_iff_lookup, hk]
    exact h1
  · intro ctx hk
    rw [reuseport_select_pass_iff_lookup, hk]
    exact h2

/-- Witness for C2: identity 7 after the history `set 3, lookup 7, select (candidate 7), clear 7`. -/
theorem never_written_is_active_witness :
    Op.set 7 ∉ [Op.set 3, Op.lookup 7, Op.select (candidate 7), Op.clear 7] ∧
    (DrainStore.lookup (run empty_store [Op.set 3, Op.lookup 7, Op.select (candidate 7), Op.clear 7]) 7).1
        = DrainFlag.ACTIVE ∧
    (∀ ctx : sk_reuseport_md, socket_key ctx = 7 →
        (reuseport_select (run empty_store [Op.set 3, Op.lookup 7, Op.select (candidate 7), Op.clear 7]) ctx).1
          = SK_PASS) ∧
    (DrainStore.lookup empty_store 7).1 = DrainFlag.ACTIVE ∧
    (∀ ctx : sk_reuseport_md, socket_key ctx = 7 →
        (reuseport_select empty_store ctx).1 = SK_PASS) :=
  ⟨by decide, never_written_is_active [Op.set 3, Op.lookup 7, Op.select (candidate 7), Op.clear 7] 7 (by decide)⟩

/-- C3: from every store state, after `set(i, DRAINING)` followed by any
sequence of store operations and filter invocations that contains no
`clear(i)` and does not evict `i`, the lookup of `i` is `DRAINING` and `reuseport_select` returns `SK_DROP`
for a candidate with identity `i`. -/
theorem set_draining_persists (s : MapState) (i : Nat) (ops : List Op)
    (hclear : Op.clear i ∉ ops)
    (hevict : never_evicts i (DrainStore.set s i) ops = true) :
    (DrainStore.lookup (run (DrainStore.set s i) ops) i).1 = DrainFlag.DRAINING ∧
    (∀ ctx : sk_reuseport_md, socket_key ctx = i →
        (reuseport_select (run (DrainStore.set s i) ops) ctx).1 = SK_DROP) := by
  have hf : find (run (DrainStore.set s i) ops) i = some SOCKET_DRAINING :=
    find_run_draining ops _ i (find_set_self s i) hclear hevict
  have h1 : (DrainStore.lookup (run (DrainStore.set s i) ops) i).1 = DrainFlag.DRAINING := by
    rw [lookup_flag, hf]; rfl
  refine ⟨h1, ?_⟩
  intro ctx hk
  rw [reuseport_select_drop_iff_lookup, hk]
  exact h1

/-- Witness for C3: identity 4 marked in the store `[(9, 0)]`, followed by
`set 5, lookup 9, clear 5, set 4, select (candidate 9)`. -/
theorem set_draining_persists_witness :
    Op.clear 4 ∉ [Op.set 5, Op.lookup 9, Op.clear 5, Op.set 4, Op.select (candidate 9)] ∧
    never_evicts 4 (DrainStore.set [(9, 0)] 4)
        [Op.set 5, Op.lookup 9, Op.clear 5, Op.set 4, Op.select (candidate 9)] = true ∧
    (DrainStore.lookup (run (DrainStore.set [(9, 0)] 4)
        [Op.set 5, Op.lookup 9, Op.clear 5, Op.set 4, Op.select (candidate 9)]) 4).1
      = DrainFlag.DRAINING ∧
    (∀ ctx : sk_reuseport_md, socket_key ctx = 4 →
        (reuseport_select (run (DrainStore.set [(9, 0)] 4)
          [Op.set 5, Op.lookup 9, Op.clear 5, Op.set 4, Op.select (candidate 9)]) ctx).1 = SK_DROP) :=
  ⟨by decide, by decide, set_draining_persists [(9, 0)] 4
    [Op.set 5, Op.lookup 9, Op.clear 5, Op.set 4, Op.select (candidate 9)] (by decide) (by decide)⟩

/-- C4: for every store state and identity `i`, whatever the prior state of `i`
(absent, `DRAINING` or explicitly `ACTIVE`), immediately after `clear(i)` the
lookup of `i` is `ACTIVE` and `reuseport_select` returns `SK_PASS` for a
candidate with identity `i`. -/
theorem clear_makes_active (s : MapState) (i : Nat) :
    (DrainStore.lookup (DrainStore.clear s i) i).1 = DrainFlag.ACTIVE ∧
    (∀ ctx : sk_reuseport_md, socket_key ctx = i →
        (reuseport_select (DrainStore.clear s i) ctx).1 = SK_PASS) := by
  have h1 : (DrainStore.lookup (DrainStore.clear s i) i).1 = DrainFlag.ACTIVE := by
    rw [lookup_flag, find_clear_self]; rfl
  refine ⟨h1, ?_⟩
  intro ctx hk
  rw [reuseport_select_pass_iff_lookup, hk]
  exact h1

/-- C5: selection law.  For every store state and every group of candidates,
the filter returns `SK_DROP` for exactly the candidates marked `DRAINING` and
`SK_PASS` for exactly the others, also when the group is evaluated candidate
after candidate; in particular for three distinct candidates `a`, `b`, `c` with
`a` and `b` marked `DRAINING` and `c` `ACTIVE` the verdicts are DROP, DROP,
PASS. -/
theorem selection_law (s : MapState) (group : List sk_reuseport_md) :
    (∀ c ∈ group, ((reuseport_select s c).1 = SK_DROP ↔
        (DrainStore.lookup s (socket_key c)).1 = DrainFlag.DRAINING) ∧
      ((reuseport_select s c).1 = SK_PASS ↔
        (DrainStore.lookup s (socket_key c)).1 ≠ DrainFlag.DRAINING)) ∧
    (select_group s group).1 = group.map (fun c =>
        if (DrainStore.lookup s (socket_key c)).1 = DrainFlag.DRAINING
        then SK_DROP else SK_PASS) ∧
    (∀ a b c : sk_reuseport_md,
        socket_key a ≠ socket_key b → socket_key a ≠ socket_key c →
        socket_key b ≠ socket_key c →
        (DrainStore.lookup s (socket_key a)).1 = DrainFlag.DRAINING →
        (DrainStore.lookup s (socket_key b)).1 = DrainFlag.DRAINING →
        (DrainStore.lookup s (socket_key c)).1 = DrainFlag.ACTIVE →
        (reuseport_select s a).1 = SK_DROP ∧ (reuseport_select s b).1 = SK_DROP ∧
        (reuseport_select s c).1 = SK_PASS ∧
        (select_group s [a, b, c]).1 = [SK_DROP, SK_DROP, SK_PASS]) := by
  refine ⟨?_, ?_, ?_⟩
  · intro c _
    refine ⟨reuseport_select_drop_iff_lookup s c, ?_⟩
    rw [reuseport_select_pass_iff_lookup]
    cases (DrainStore.lookup s (socket_key c)).1 <;> simp
  · rw [select_group_verdicts]
    apply List.map_congr_left
    intro c _
    simp only [lookup_flag, flag_of_eq_DRAINING_iff]
  · intro a b c _ _ _ ha hb hc
    have hc' : find s (socket_key c) ≠ some SOCKET_DRAINING :=
      (flag_of_eq_ACTIVE_iff _).1 hc
    have ha' := (flag_of_eq_DRAINING_iff _).1 ha
    have hb' := (flag_of_eq_DRAINING_iff _).1 hb
    refine ⟨(reuseport_select_drop_iff_lookup s a).2 ha,
      (reuseport_select_drop_iff_lookup s b).2 hb,
      (reuseport_select_pass_iff_lookup s c).2 hc, ?_⟩
    rw [select_group_verdicts]
    simp [ha', hb', hc']

/-- Witness for C5: the store `[(10, 1), (30, 0), (20, 1)]` and the group of
the candidates with socket pointers 10, 20 and 30. -/
theorem selection_law_witness :
    (DrainStore.lookup [(10, 1), (30, 0), (20, 1)] (socket_key (candidate 10))).1
        = DrainFlag.DRAINING ∧
    (DrainStore.lookup [(10, 1), (30, 0), (20, 1)] (socket_key (candidate 20))).1
        = DrainFlag.DRAINING ∧
    (DrainStore.lookup [(10, 1), (30, 0), (20, 1)] (socket_key (candidate 30))).1
        = DrainFlag.ACTIVE ∧
    (reuseport_select [(10, 1), (30, 0), (20, 1)] (candidate 10)).1 = SK_DROP ∧
    (reuseport_select [(10, 1), (30, 0), (20, 1)] (candidate 20)).1 = SK_DROP ∧
    (reuseport_select [(10, 1), (30, 0), (20, 1)] (candidate 30)).1 = SK_PASS ∧
    (select_group [(10, 1), (30, 0), (20, 1)] [candidate 10, candidate 20, candidate 30]).1
      = [SK_DROP, SK_DROP, SK_PASS] :=
  ⟨by decide, by decide, by decide,
    (selection_law [(10, 1), (30, 0), (20, 1)]
        [candidate 10, candidate 20, candidate 30]).2.2
      (candidate 10) (candidate 20) (candidate 30)
      (by decide) (by decide) (by decide) (by decide) (by decide) (by decide)⟩

/-- C6: for every non-empty group in which every candidate is marked
`DRAINING`, the filter returns `SK_DROP` for every candidate, the last one
included: there is no special case that passes a last remaining or default
socket. -/
theorem all_draining_all_dropped (s : MapState) (group : List sk_reuseport_md)
    (hne : group ≠ [])
    (hall : ∀ c ∈ group, (DrainStore.lookup s (socket_key c)).1 = DrainFlag.DRAINING) :
    (∀ c ∈ group, (reuseport_select s c).1 = SK_DROP) ∧
    (select_group s group).1 = List.replicate group.length SK_DROP ∧
    (select_group s group).1 ≠ [] ∧
    SK_PASS ∉ (select_group s group).1 := by
  have h1 : ∀ c ∈ group, (reuseport_select s c).1 = SK_DROP :=
    fun c hc => (reuseport_select_drop_iff_lookup s c).2 (hall c hc)
  have h2 : (select_group s group).1 = List.replicate group.length SK_DROP := by
    rw [select_group_verdicts, List.eq_replicate_iff]
    refine ⟨by simp, ?_⟩
    intro v hv
    obtain ⟨c, hc, rfl⟩ := List.mem_map.1 hv
    have := (flag_of_eq_DRAINING_iff _).1 (hall c hc)
    simp [this]
  refine ⟨h1, h2, ?_, ?_⟩
  · rw [h2]
    intro c
    have := congrArg List.length c
    simp at this
    exact hne this
  · rw [h2]
    intro c
    exact SK_DROP_ne_SK_PASS (List.eq_of_mem_replicate c).symm

/-- Witness for C6: the store `[(10, 1), (20, 1)]` and the group of the
candidates with socket pointers 20 and 10. -/
theorem all_draining_all_dropped_witness :
    [candidate 20, candidate 10] ≠ [] ∧
    (∀ c ∈ [candidate 20, candidate 10],
      (DrainStore.lookup [(10, 1), (20, 1)] (socket_key c)).1 = DrainFlag.DRAINING) ∧
    (∀ c ∈ [candidate 20, candidate 10],
      (reuseport_select [(10, 1), (20, 1)] c).1 = SK_DROP) ∧
    (select_group [(10, 1), (20, 1)] [candidate 20, candidate 10]).1
      = List.replicate [candidate 20, candidate 10].length SK_DROP ∧
    (select_group [(10, 1), (20, 1)] [candidate 20, candidate 10]).1 ≠ [] ∧
    SK_PASS ∉ (select_group [(10, 1), (20, 1)] [candidate 20, candidate 10]).1 :=
  ⟨by decide, by decide,
    all_draining_all_dropped [(10, 1), (20, 1)] [candidate 20, candidate 10]
      (by decide) (by decide)⟩

/-- C7, as stated, fails: in the store `[(1, 1), (2, 1)]` the filter, called
for the candidate with socket pointer 2, hands back the store
`[(2, 1), (1, 1)]`: the lookup is a use of key 2 and changes the eviction
order. -/
theorem reuseport_select_changes_recency :
    (reuseport_select [(1, 1), (2, 1)] (candidate 2)).2 = [(2, 1), (1, 1)] ∧
    (reuseport_select [(1, 1), (2, 1)] (candidate 2)).2 ≠ [(1, 1), (2, 1)] := by
  decide

/-- C7, amended: the filter never mutates drain state.  For every store state
and candidate context the store after `reuseport_select` has the same keys with
the same drain flags as before; the only change is that the entry of the
candidate, if there is one, becomes the most recently used, so that the store is
a reordering of the store before (and is the very same store when the candidate
has no entry). -/
theorem reuseport_select_preserves_flags (s : MapState) (ctx : sk_reuseport_md) :
    (∀ k, find (reuseport_select s ctx).2 k = find s k) ∧
    (∀ k, (DrainStore.lookup (reuseport_select s ctx).2 k).1 = (DrainStore.lookup s k).1) ∧
    (reuseport_select s ctx).2 = touch s (socket_key ctx) ∧
    (find s (socket_key ctx) = none → (reuseport_select s ctx).2 = s) ∧
    ((keys s).Nodup → ((reuseport_select s ctx).2).Perm s) := by
  rw [reuseport_select_store]
  refine ⟨fun k => find_touch s _ k, ?_, rfl, ?_, fun h => touch_perm s _ h⟩
  · intro k
    rw [lookup_flag, lookup_flag, find_touch]
  · intro h
    simp [touch, h]

/-- Witness for the amended C7: the store `[(1, 1), (2, 0), (3, 1)]` and the
candidate with socket pointer 3. -/
theorem reuseport_select_preserves_flags_witness :
    (keys [(1, 1), (2, 0), (3, 1)]).Nodup ∧
    ((reuseport_select [(1, 1), (2, 0), (3, 1)] (candidate 3)).2).Perm
      [(1, 1), (2, 0), (3, 1)] :=
  ⟨by decide,
    (reuseport_select_preserves_flags [(1, 1), (2, 0), (3, 1)] (candidate 3)).2.2.2.2
      (by decide)⟩

/-- C8: idempotence.  For every store state and identity `i`, `set(i, DRAINING)`
performed twice in a row leaves the same store as performed once, hence the same
lookup result and filter verdict for every identity; likewise for `clear(i)`. -/
theorem set_clear_idempotent (s : MapState) (i : Nat) :
    DrainStore.set (DrainStore.set s i) i = DrainStore.set s i ∧
    (∀ k, (DrainStore.lookup (DrainStore.set (DrainStore.set s i) i) k).1
        = (DrainStore.lookup (DrainStore.set s i) k).1) ∧
    (∀ ctx : sk_reuseport_md,
      (reuseport_select (DrainStore.set (DrainStore.set s i) i) ctx).1
        = (reuseport_select (DrainStore.set s i) ctx).1) ∧
    DrainStore.clear (DrainStore.clear s i) i = DrainStore.clear s i ∧
    (∀ k, (DrainStore.lookup (DrainStore.clear (DrainStore.clear s i) i) k).1
        = (DrainStore.lookup (DrainStore.clear s i) k).1) ∧
    (∀ ctx : sk_reuseport_md,
      (reuseport_select (DrainStore.clear (DrainStore.clear s i) i) ctx).1
        = (reuseport_select (DrainStore.clear s i) ctx).1) := by
  refine ⟨set_set s i, ?_, ?_, clear_clear s i, ?_, ?_⟩
  · intro k
    rw [set_set]
  · intro ctx
    rw [set_set]
  · intro k
    rw [clear_clear]
  · intro ctx
    rw [clear_clear]

/-- C9: capacity invariant.  Starting from the empty store, after every finite
sequence of `set`, `clear` and `lookup` operations (and filter invocations) the
store holds at most 4096
entries; in particular after inserting `n` distinct identities, for any `n`
(also beyond 4096), it holds `min n 4096` entries. -/
theorem capacity_invariant (ops : List Op) :
    (run empty_store ops).length ≤ 4096 ∧
    draining_sockets.max_entries = 4096 ∧
    (∀ n : Nat, (run empty_store ((List.range n).map Op.set)).length = min n 4096) := by
  refine ⟨?_, rfl, fun n => (insert_range n).2⟩
  have := length_run_le ops empty_store (by simp [empty_store])
  rwa [max_entries_eq] at this

/-- C10: eviction on a full store.  When the (well-formed) store holds 4096
entries and `set(j, DRAINING)` is called for an identity `j` without an entry,
the write takes effect (afterwards the lookup of `j` is `DRAINING` and the filter
returns `SK_DROP` for `j`); exactly one entry is removed, the least recently used
one (the last of the recency list), every other entry is kept, the store still
holds 4096 entries; and the filter returns `SK_PASS` for the evicted identity,
whatever its flag was. -/
theorem set_on_full_store_evicts_lru (s : MapState) (j : Nat)
    (hwf : WF s) (hfull : s.length = 4096) (hj : find s j = none) :
    ∃ victim : Nat × Nat,
      s.getLast? = some victim ∧
      s = s.dropLast ++ [victim] ∧
      evicted s (Op.set j) = some victim.1 ∧
      DrainStore.set s j = (j, SOCKET_DRAINING) :: s.dropLast ∧
      (DrainStore.set s j).length = 4096 ∧
      (DrainStore.lookup (DrainStore.set s j) j).1 = DrainFlag.DRAINING ∧
      (∀ ctx : sk_reuseport_md, socket_key ctx = j →
        (reuseport_select (DrainStore.set s j) ctx).1 = SK_DROP) ∧
      find (DrainStore.set s j) victim.1 = none ∧
      (∀ ctx : sk_reuseport_md, socket_key ctx = victim.1 →
        (reuseport_select (DrainStore.set s j) ctx).1 = SK_PASS) ∧
      (∀ k, k ≠ j → k ≠ victim.1 → find (DrainStore.set s j) k = find s k) := by
  have hne : s ≠ [] := by
    intro c
    rw [c] at hfull
    simp at hfull
  have hc : draining_sockets.max_entries ≤ s.length := by
    rw [max_entries_eq, hfull]
  have hlast : s.getLast? = some (s.getLast hne) := List.getLast?_eq_getLast s hne
  have hsplit : s = s.dropLast ++ [s.getLast hne] := (List.dropLast_append_getLast hne).symm
  have hset : DrainStore.set s j = (j, SOCKET_DRAINING) :: s.dropLast :=
    lru_update_full _ s j _ hj hc
  have hev : evicted s (Op.set j) = some (s.getLast hne).1 := by
    simp only [evicted]
    rw [lru_evicted_full _ s j hj hc, lru_victim, hlast]
    rfl
  have hvmem : (s.getLast hne).1 ∈ keys s :=
    List.mem_map_of_mem Prod.fst (List.getLast_mem hne)
  have hvj : (s.getLast hne).1 ≠ j := by
    intro c
    exact (find_eq_none_iff s j).1 hj (c ▸ hvmem)
  have hvnot : (s.getLast hne).1 ∉ keys s.dropLast := by
    have hnd : (keys (s.dropLast ++ [s.getLast hne])).Nodup := by
      rw [← hsplit]; exact hwf.1
    unfold keys at hnd
    rw [List.map_append] at hnd
    have hdis := (List.nodup_append.1 hnd).2.2
    intro c
    exact hdis c (by simp)
  have hvnone : find (DrainStore.set s j) (s.getLast hne).1 = none := by
    rw [hset, find_cons, if_neg (Ne.symm hvj)]
    exact (find_eq_none_iff _ _).2 hvnot
  have hdrain : (DrainStore.lookup (DrainStore.set s j) j).1 = DrainFlag.DRAINING := by
    rw [lookup_flag, find_set_self]; rfl
  refine ⟨s.getLast hne, hlast, hsplit, hev, hset, ?_, hdrain, ?_, hvnone, ?_, ?_⟩
  · rw [hset, List.length_cons, List.length_dropLast, hfull]
  · intro ctx hk
    rw [reuseport_select_drop_iff_lookup, hk]
    exact hdrain
  · intro ctx hk
    rw [reuseport_select_pass_iff_lookup, hk, lookup_flag, hvnone]
    rfl
  · intro k hkj hkv
    unfold DrainStore.set
    apply find_lru_update_ne _ s j _ hkj
    have : lru_evicted draining_sockets.max_entries s j = some (s.getLast hne).1 := hev
    rw [this]
    intro c
    exact hkv (Option.some.inj c).symm

/-- Witness for C10: the full store `full_store` (identities 0 to 4095) and
the new identity 4096. -/
theorem set_on_full_store_evicts_lru_witness :
    WF full_store ∧ full_store.length = 4096 ∧ find full_store 4096 = none ∧
    ∃ victim : Nat × Nat,
      full_store.getLast? = some victim ∧
      full_store = full_store.dropLast ++ [victim] ∧
      evicted full_store (Op.set 4096) = some victim.1 ∧
      DrainStore.set full_store 4096 = (4096, SOCKET_DRAINING) :: full_store.dropLast ∧
      (DrainStore.set full_store 4096).length = 4096 ∧
      (DrainStore.lookup (DrainStore.set full_store 4096) 4096).1 = DrainFlag.DRAINING ∧
      (∀ ctx : sk_reuseport_md, socket_key ctx = 4096 →
        (reuseport_select (DrainStore.set full_store 4096) ctx).1 = SK_DROP) ∧
      find (DrainStore.set full_store 4096) victim.1 = none ∧
      (∀ ctx : sk_reuseport_md, socket_key ctx = victim.1 →
        (reuseport_select (DrainStore.set full_store 4096) ctx).1 = SK_PASS) ∧
      (∀ k, k ≠ 4096 → k ≠ victim.1 →
        find (DrainStore.set full_store 4096) k = find full_store k) :=
  ⟨full_store_WF, full_store_length, full_store_find_4096,
    set_on_full_store_evicts_lru full_store 4096
      full_store_WF full_store_length full_store_find_4096⟩

/-- C11: `clear(i)` on an identity without an entry is a no-op and not an
error: the call reports no failure, the store afterwards is the store before,
and so the lookup result and the filter verdict of every identity are
unchanged. -/
theorem clear_missing_is_noop (s : MapState) (i : Nat) (h : find s i = none) :
    DrainStore.clear s i = s ∧
    unmark_draining s i = (StoreStatus.ok, s) ∧
    (∀ k, (DrainStore.lookup (DrainStore.clear s i) k).1 = (DrainStore.lookup s k).1) ∧
    (∀ ctx : sk_reuseport_md,
      (reuseport_select (DrainStore.clear s i) ctx).1 = (reuseport_select s ctx).1) := by
  have hs : DrainStore.clear s i = s := remove_eq_self s i h
  refine ⟨hs, ?_, ?_, ?_⟩
  · unfold unmark_draining
    rw [hs]
  · intro k
    rw [hs]
  · intro ctx
    rw [hs]

/-- Witness for C11: the store `[(1, 1), (2, 0)]` and the identity 3, which has
no entry. -/
theorem clear_missing_is_noop_witness :
    find [(1, 1), (2, 0)] 3 = none ∧
    DrainStore.clear [(1, 1), (2, 0)] 3 = [(1, 1), (2, 0)] ∧
    unmark_draining [(1, 1), (2, 0)] 3 = (StoreStatus.ok, [(1, 1), (2, 0)]) ∧
    (∀ k, (DrainStore.lookup (DrainStore.clear [(1, 1), (2, 0)] 3) k).1
        = (DrainStore.lookup [(1, 1), (2, 0)] k).1) ∧
    (∀ ctx : sk_reuseport_md,
      (reuseport_select (DrainStore.clear [(1, 1), (2, 0)] 3) ctx).1
        = (reuseport_select [(1, 1), (2, 0)] ctx).1) :=
  ⟨by decide, clear_missing_is_noop [(1, 1), (2, 0)] 3 (by decide)⟩

/-- C12: evaluation of the filter at a socket whose cookie differs from its
address.  The socket at address `0xffff888104a2c000` has cookie 17 and the map
holds the entry `(17, 1)`, written under the cookie as source line 15
documents; the filter looks up the address instead (line 32), finds nothing and
returns `SK_PASS`.  Only an entry under the address makes it return
`SK_DROP`. -/
theorem cookie_entry_does_not_drop :
    is_pointer 0xffff888104a2c000 ∧
    find [(17, SOCKET_DRAINING)] (sock.mk 0xffff888104a2c000 17).cookie
      = some SOCKET_DRAINING ∧
    socket_key (ctx_of_sock (sock.mk 0xffff888104a2c000 17)) = 0xffff888104a2c000 ∧
    (reuseport_select [(17, SOCKET_DRAINING)]
      (ctx_of_sock (sock.mk 0xffff888104a2c000 17))).1 = SK_PASS ∧
    (reuseport_select [(0xffff888104a2c000, SOCKET_DRAINING)]
      (ctx_of_sock (sock.mk 0xffff888104a2c000 17))).1 = SK_DROP := by
  decide

/-- C13: an explicit `ACTIVE` entry is indistinguishable from an absent one.
For every store state, identity `i` and stored value `v` other than 1 (0, or
any other byte), the filter verdict for `i` is `SK_PASS`, the same as in the
store with the entry of `i` removed; the lookup says `ACTIVE` in both, and
writing such a value under `i` gives `SK_PASS` as well. -/
theorem explicit_active_like_absent (s : MapState) (i v : Nat)
    (hv : v ≠ SOCKET_DRAINING) (h : find s i = some v) :
    (∀ ctx : sk_reuseport_md, socket_key ctx = i →
      (reuseport_select s ctx).1 = SK_PASS ∧
      (reuseport_select (DrainStore.clear s i) ctx).1 = SK_PASS ∧
      (reuseport_select s ctx).1 = (reuseport_select (DrainStore.clear s i) ctx).1) ∧
    (DrainStore.lookup s i).1 = DrainFlag.ACTIVE ∧
    (DrainStore.lookup (DrainStore.clear s i) i).1 = DrainFlag.ACTIVE ∧
    (∀ (t : MapState) (ctx : sk_reuseport_md), socket_key ctx = i →
      (reuseport_select (lru_update draining_sockets.max_entries t i v) ctx).1 = SK_PASS) := by
  have hne : find s i ≠ some SOCKET_DRAINING := by
    rw [h]
    intro c
    exact hv (Option.some.inj c)
  have h1 : (DrainStore.lookup s i).1 = DrainFlag.ACTIVE :=
    (flag_of_eq_ACTIVE_iff _).2 hne
  have h2 : (DrainStore.lookup (DrainStore.clear s i) i).1 = DrainFlag.ACTIVE := by
    rw [lookup_flag, find_clear_self]; rfl
  refine ⟨?_, h1, h2, ?_⟩
  · intro ctx hk
    have p1 : (reuseport_select s ctx).1 = SK_PASS := by
      rw [reuseport_select_pass_iff_lookup, hk]; exact h1
    have p2 : (reuseport_select (DrainStore.clear s i) ctx).1 = SK_PASS := by
      rw [reuseport_select_pass_iff_lookup, hk]; exact h2
    exact ⟨p1, p2, p1.trans p2.symm⟩
  · intro t ctx hk
    rw [reuseport_select_verdict, hk, find_lru_update_self]
    have : ¬ (some v = some SOCKET_DRAINING) := fun c => hv (Option.some.inj c)
    rw [if_neg this]

/-- Witness for C13: the store `[(4, 1), (8, 0)]`, in which identity 8 has an
explicit entry with value 0. -/
theorem explicit_active_like_absent_witness :
    (0 : Nat) ≠ SOCKET_DRAINING ∧ find [(4, 1), (8, 0)] 8 = some 0 ∧
    (∀ ctx : sk_reuseport_md, socket_key ctx = 8 →
      (reuseport_select [(4, 1), (8, 0)] ctx).1 = SK_PASS ∧
      (reuseport_select (DrainStore.clear [(4, 1), (8, 0)] 8) ctx).1 = SK_PASS ∧
      (reuseport_select [(4, 1), (8, 0)] ctx).1
        = (reuseport_select (DrainStore.clear [(4, 1), (8, 0)] 8) ctx).1) ∧
    (DrainStore.lookup [(4, 1), (8, 0)] 8).1 = DrainFlag.ACTIVE ∧
    (DrainStore.lookup (DrainStore.clear [(4, 1), (8, 0)] 8) 8).1 = DrainFlag.ACTIVE ∧
    (∀ (t : MapState) (ctx : sk_reuseport_md), socket_key ctx = 8 →
      (reuseport_select (lru_update draining_sockets.max_entries t 8 0) ctx).1 = SK_PASS) :=
  ⟨by decide, by decide,
    explicit_active_like_absent [(4, 1), (8, 0)] 8 0 (by decide) (by decide)⟩

/-- C14: the filter is total with exactly two verdicts.  For every store state
and candidate context `reuseport_select` returns a result without a fault, the
verdict is `SK_PASS` or `SK_DROP` and nothing else, and the stored flag is read
only when the lookup found an entry: whenever a read through the lookup result
would fault (the lookup failed), the read is not reached and the verdict is
`SK_PASS`. -/
theorem reuseport_select_total (s : MapState) (ctx : sk_reuseport_md) :
    reuseport_select_checked s ctx = Except.ok (reuseport_select s ctx) ∧
    ((reuseport_select s ctx).1 = SK_PASS ∨ (reuseport_select s ctx).1 = SK_DROP) ∧
    SK_PASS ≠ SK_DROP ∧
    ((bpf_map_lookup_elem s (socket_key ctx)).1 = none →
      (reuseport_select s ctx).1 = SK_PASS) ∧
    (load_u8 (bpf_map_lookup_elem s (socket_key ctx)).1
        = Except.error Fault.null_dereference →
      reuseport_select_checked s ctx
        = Except.ok (SK_PASS, (bpf_map_lookup_elem s (socket_key ctx)).2)) := by
  have hv := reuseport_select_verdict s ctx
  refine ⟨?_, ?_, SK_DROP_ne_SK_PASS.symm, ?_, ?_⟩
  · simp only [reuseport_select_checked, reuseport_select, bpf_map_lookup_elem]
    cases h : find s (socket_key ctx) with
    | none => simp
    | some v =>
      by_cases hd : v = SOCKET_DRAINING
      · simp [load_u8, hd]
      · simp [load_u8, hd]
  · rw [hv]
    by_cases h : find s (socket_key ctx) = some SOCKET_DRAINING
    · right; simp [h]
    · left; simp [h]
  · intro h
    have h0 : find s (socket_key ctx) = none := h
    rw [hv, h0]
    simp
  · intro h
    simp only [reuseport_select_checked, bpf_map_lookup_elem] at h ⊢
    cases hf : find s (socket_key ctx) with
    | none => simp
    | some v => simp [hf, load_u8] at h

/-- Witness for C14: the store `[(4, 1)]` and the candidate with socket pointer
9, for which the lookup fails. -/
theorem reuseport_select_total_witness :
    (bpf_map_lookup_elem [(4, 1)] (socket_key (candidate 9))).1 = none ∧
    load_u8 (bpf_map_lookup_elem [(4, 1)] (socket_key (candidate 9))).1
        = Except.error Fault.null_dereference ∧
    (reuseport_select [(4, 1)] (candidate 9)).1 = SK_PASS ∧
    reuseport_select_checked [(4, 1)] (candidate 9)
        = Except.ok (SK_PASS, (bpf_map_lookup_elem [(4, 1)] (socket_key (candidate 9))).2) :=
  ⟨by decide, rfl,
    (reuseport_select_total [(4, 1)] (candidate 9)).2.2.2.1 (by decide),
    (reuseport_select_total [(4, 1)] (candidate 9)).2.2.2.2 rfl⟩

/-- C16: the filter is a pure function of the candidate's identity and of that
identity's store entry.  For any two contexts with the same `ctx->sk` and any
two store states that agree on the entry of that key, `reuseport_select` returns
the same verdict, whatever the other context fields and the other entries
are. -/
theorem reuseport_select_pure (s1 s2 : MapState) (c1 c2 : sk_reuseport_md)
    (hsk : c1.sk = c2.sk) (hentry : find s1 (socket_key c1) = find s2 (socket_key c1)) :
    socket_key c1 = socket_key c2 ∧
    (reuseport_select s1 c1).1 = (reuseport_select s2 c2).1 := by
  have hk : socket_key c1 = socket_key c2 := by
    unfold socket_key
    rw [hsk]
  refine ⟨hk, reuseport_select_congr s1 s2 c1 c2 ?_⟩
  rw [← hk]
  exact hentry

/-- Witness for C16: two contexts for socket pointer 6 that differ in packet
data, length, protocol and hash, and two stores that agree only on key 6. -/
theorem reuseport_select_pure_witness :
    (sk_reuseport_md.mk 100 164 64 2048 17 0 77 6 0).sk
      = (sk_reuseport_md.mk 500 520 20 34525 6 1 12345 6 0).sk ∧
    find [(5, 0), (6, 1)] (socket_key (sk_reuseport_md.mk 100 164 64 2048 17 0 77 6 0))
      = find [(6, 1), (9, 1), (5, 1)]
          (socket_key (sk_reuseport_md.mk 100 164 64 2048 17 0 77 6 0)) ∧
    socket_key (sk_reuseport_md.mk 100 164 64 2048 17 0 77 6 0)
      = socket_key (sk_reuseport_md.mk 500 520 20 34525 6 1 12345 6 0) ∧
    (reuseport_select [(5, 0), (6, 1)] (sk_reuseport_md.mk 100 164 64 2048 17 0 77 6 0)).1
      = (reuseport_select [(6, 1), (9, 1), (5, 1)]
          (sk_reuseport_md.mk 500 520 20 34525 6 1 12345 6 0)).1 :=
  ⟨by decide, by decide,
    reuseport_select_pure [(5, 0), (6, 1)] [(6, 1), (9, 1), (5, 1)]
      (sk_reuseport_md.mk 100 164 64 2048 17 0 77 6 0)
      (sk_reuseport_md.mk 500 520 20 34525 6 1 12345 6 0) (by decide) (by decide)⟩

/-- C17: writes are keyed and independent.  For every store state holding
fewer than 4096 entries and all identities `i` and `j` with `j` different from
`i`, neither `set(i, DRAINING)` nor `clear(i)` changes the lookup of `j` or the
filter verdict for `j`.  On any store, `clear(i)` never changes them, and a
`set(i, DRAINING)` that changes the verdict for `j` is one that evicts `j` from
a store holding at least 4096 entries, `i` being new. -/
theorem writes_are_keyed (s : MapState) (i j : Nat)
    (hlen : s.length < 4096) (hij : j ≠ i) :
    (DrainStore.lookup (DrainStore.set s i) j).1 = (DrainStore.lookup s j).1 ∧
    (DrainStore.lookup (DrainStore.clear s i) j).1 = (DrainStore.lookup s j).1 ∧
    (∀ ctx : sk_reuseport_md, socket_key ctx = j →
      (reuseport_select (DrainStore.set s i) ctx).1 = (reuseport_select s ctx).1 ∧
      (reuseport_select (DrainStore.clear s i) ctx).1 = (reuseport_select s ctx).1) ∧
    (∀ (t : MapState) (ctx : sk_reuseport_md), socket_key ctx = j →
      (reuseport_select (DrainStore.clear t i) ctx).1 = (reuseport_select t ctx).1) ∧
    (∀ (t : MapState) (ctx : sk_reuseport_md), socket_key ctx = j →
      (reuseport_select (DrainStore.set t i) ctx).1 ≠ (reuseport_select t ctx).1 →
      evicted t (Op.set i) = some j ∧ find t i = none ∧ 4096 ≤ t.length) := by
  have hnoev : lru_evicted draining_sockets.max_entries s i ≠ some j := by
    intro c
    have := (lru_evicted_some _ s i j c).2
    rw [max_entries_eq] at this
    omega
  have hset : find (DrainStore.set s i) j = find s j :=
    find_lru_update_ne _ s i _ hij hnoev
  have hclear : ∀ t : MapState, find (DrainStore.clear t i) j = find t j :=
    fun t => find_clear_ne t hij
  refine ⟨?_, ?_, ?_, ?_, ?_⟩
  · rw [lookup_flag, lookup_flag, hset]
  · rw [lookup_flag, lookup_flag, hclear]
  · intro ctx hk
    constructor
    · apply reuseport_select_congr
      rw [hk, hset]
    · apply reuseport_select_congr
      rw [hk, hclear]
  · intro t ctx hk
    apply reuseport_select_congr
    rw [hk, hclear]
  · intro t ctx hk hchange
    have hev : evicted t (Op.set i) = some j := by
      by_contra hne
      apply hchange
      apply reuseport_select_congr
      rw [hk]
      exact find_lru_update_ne _ t i _ hij hne
    have := lru_evicted_some _ t i j hev
    rw [max_entries_eq] at this
    exact ⟨hev, this.1, this.2⟩

/-- Witness for C17: the store `[(1, 1), (2, 0)]`, a write to identity 3 and
the other identity 1. -/
theorem writes_are_keyed_witness :
    ([(1, 1), (2, 0)] : MapState).length < 4096 ∧ (1 : Nat) ≠ 3 ∧
    (DrainStore.lookup (DrainStore.set [(1, 1), (2, 0)] 3) 1).1
      = (DrainStore.lookup [(1, 1), (2, 0)] 1).1 ∧
    (DrainStore.lookup (DrainStore.clear [(1, 1), (2, 0)] 3) 1).1
      = (DrainStore.lookup [(1, 1), (2, 0)] 1).1 ∧
    (∀ ctx : sk_reuseport_md, socket_key ctx = 1 →
      (reuseport_select (DrainStore.set [(1, 1), (2, 0)] 3) ctx).1
        = (reuseport_select [(1, 1), (2, 0)] ctx).1 ∧
      (reuseport_select (DrainStore.clear [(1, 1), (2, 0)] 3) ctx).1
        = (reuseport_select [(1, 1), (2, 0)] ctx).1) ∧
    (∀ (t : MapState) (ctx : sk_reuseport_md), socket_key ctx = 1 →
      (reuseport_select (DrainStore.clear t 3) ctx).1 = (reuseport_select t ctx).1) ∧
    (∀ (t : MapState) (ctx : sk_reuseport_md), socket_key ctx = 1 →
      (reuseport_select (DrainStore.set t 3) ctx).1 ≠ (reuseport_select t ctx).1 →
      evicted t (Op.set 3) = some 1 ∧ find t 3 = none ∧ 4096 ≤ t.length) :=
  ⟨by decide, by decide, writes_are_keyed [(1, 1), (2, 0)] 3 1 (by decide) (by decide)⟩

/-- C18: the identity the filter computes is a lossless 64-bit image of the
socket pointer.  On pointers the conversion `(__u64)(uintptr_t)ctx->sk` is the
identity map, hence injective: two candidates with distinct socket pointers are
looked up under distinct keys, and marking one of them `DRAINING` never causes
the filter to return `SK_DROP` for the other (it drops the other only if it
dropped it before). -/
theorem socket_key_injective (a b : sk_reuseport_md)
    (ha : is_pointer a.sk) (hb : is_pointer b.sk) (hne : a.sk ≠ b.sk) :
    socket_key a = a.sk ∧ socket_key b = b.sk ∧
    socket_key a ≠ socket_key b ∧
    (∀ s : MapState,
      (reuseport_select (DrainStore.set s (socket_key a)) b).1 = SK_DROP →
      (reuseport_select s b).1 = SK_DROP) ∧
    (∀ s : MapState, (reuseport_select s b).1 = SK_PASS →
      (reuseport_select (DrainStore.set s (socket_key a)) b).1 = SK_PASS) := by
  have hka := socket_key_of_pointer a ha
  have hkb := socket_key_of_pointer b hb
  have hk : socket_key b ≠ socket_key a := by
    rw [hka, hkb]
    exact Ne.symm hne
  have hdrop : ∀ s : MapState,
      (reuseport_select (DrainStore.set s (socket_key a)) b).1 = SK_DROP →
      (reuseport_select s b).1 = SK_DROP := by
    intro s h
    rw [reuseport_select_drop_iff_find] at h
    rw [reuseport_select_drop_iff_find]
    exact find_lru_update_some _ s _ _ hk h
  refine ⟨hka, hkb, Ne.symm hk, hdrop, ?_⟩
  intro s hpass
  rcases reuseport_select_pass_or_drop (DrainStore.set s (socket_key a)) b with h | h
  · exact h
  · have := hdrop s h
    rw [this] at hpass
    exact absurd hpass SK_DROP_ne_SK_PASS

/-- Witness for C18: the candidates with socket pointers `0xffff888104a2c000`
and `0xffff888104a2c800`. -/
theorem socket_key_injective_witness :
    is_pointer (candidate 0xffff888104a2c000).sk ∧
    is_pointer (candidate 0xffff888104a2c800).sk ∧
    (candidate 0xffff888104a2c000).sk ≠ (candidate 0xffff888104a2c800).sk ∧
    socket_key (candidate 0xffff888104a2c000) = (candidate 0xffff888104a2c000).sk ∧
    socket_key (candidate 0xffff888104a2c800) = (candidate 0xffff888104a2c800).sk ∧
    socket_key (candidate 0xffff888104a2c000) ≠ socket_key (candidate 0xffff888104a2c800) ∧
    (∀ s : MapState,
      (reuseport_select (DrainStore.set s (socket_key (candidate 0xffff888104a2c000)))
        (candidate 0xffff888104a2c800)).1 = SK_DROP →
      (reuseport_select s (candidate 0xffff888104a2c800)).1 = SK_DROP) ∧
    (∀ s : MapState, (reuseport_select s (candidate 0xffff888104a2c800)).1 = SK_PASS →
      (reuseport_select (DrainStore.set s (socket_key (candidate 0xffff888104a2c000)))
        (candidate 0xffff888104a2c800)).1 = SK_PASS) :=
  ⟨by decide, by decide, by decide,
    socket_key_injective (candidate 0xffff888104a2c000) (candidate 0xffff888104a2c800)
      (by decide) (by decide) (by decide)⟩

end ReuseportDrain
